import Mathlib

/-!
Verification development for the DOFTA cooperative marketplace:
the Order–Escrow Transaction Engine (order state machine, escrow
contract, transaction coordinator, fee calculator) together with the
persisted schemas and the frontend API client.

The executable Rust sources of the escrow contract (contracts/src/lib.rs)
and of the backend order/transaction modules are not part of the source
tree; their behaviour is modelled from the specification text, as marked
on each such definition.  The SQL migrations, design documents and the
frontend TypeScript services are present and are embedded directly.
-/

/-! ## Fee calculator (pure) -/

/-- Fee calculator, platform fee in integer percent: the fee retained by
the cooperative on an amount, `amount * pct / 100` with truncating
natural division. -/
def feeAmount (amount pct : Nat) : Nat := amount * pct / 100

/-- Fee calculator: the portion of an amount forwarded to the seller
after the platform fee is deducted. -/
def sellerAmount (amount pct : Nat) : Nat := amount - feeAmount amount pct

theorem feeAmount_le (amount pct : Nat) (h : pct ≤ 100) :
    feeAmount amount pct ≤ amount := by
  unfold feeAmount
  calc amount * pct / 100 ≤ amount * 100 / 100 :=
        Nat.div_le_div_right (Nat.mul_le_mul_left amount h)
    _ = amount := Nat.mul_div_cancel amount (by norm_num)

theorem sellerAmount_add_feeAmount (amount pct : Nat) (h : pct ≤ 100) :
    sellerAmount amount pct + feeAmount amount pct = amount := by
  unfold sellerAmount
  exact Nat.sub_add_cancel (feeAmount_le amount pct h)

/-! ## Association-list helpers shared by every stateful component -/

/-- Look up the value stored under a key in an association list. -/
def getA {β : Type} (xs : List (Nat × β)) (k : Nat) : Option β :=
  (xs.find? (fun p => p.1 == k)).map Prod.snd

/-- Replace the value stored under a key in an association list. -/
def setA {β : Type} (xs : List (Nat × β)) (k : Nat) (v : β) : List (Nat × β) :=
  xs.map (fun p => if p.1 == k then (k, v) else p)

theorem getA_setA_same {β : Type} (xs : List (Nat × β)) (k : Nat) (v : β)
    (h : (getA xs k).isSome) : getA (setA xs k v) k = some v := by
  induction xs with
  | nil => simp [getA] at h
  | cons x xs ih =>
    by_cases hx : x.1 = k
    · simp [getA, setA, List.find?_cons, hx]
    · have hx' : (x.1 == k) = false := by
        simp [hx]
      simp only [getA, setA, List.map_cons, List.find?_cons, hx', Bool.false_eq_true,
        if_false] at h ⊢
      exact ih h

theorem getA_cons_self {β : Type} (xs : List (Nat × β)) (k : Nat) (v : β) :
    getA ((k, v) :: xs) k = some v := by
  simp [getA, List.find?_cons]

/-! ## Escrow contract

Status, record and error enumerations follow the contract architecture in
the contracts README and the frontend EscrowOrder interface
(frontend/src/services/near.ts).  Account and order identifiers are
abstracted to natural numbers. -/

/-- Escrow states from the contract architecture: Pending, Completed,
Refunded, Disputed. -/
inductive EscrowStatus
  | pending
  | completed
  | refunded
  | disputed
deriving DecidableEq, Repr

/-- An escrow record held by the contract, following the EscrowOrder
layout (order id, buyer, seller, locked amount, status, created-at,
optional completed-at).  Amounts and timestamps are naturals. -/
structure EscrowOrder where
  order_id : Nat
  buyer : Nat
  seller : Nat
  amount : Nat
  status : EscrowStatus
  created_at : Nat
  completed_at : Option Nat
deriving DecidableEq, Repr

/-- Typed failures of the escrow contract operations. -/
inductive EscrowErr
  | amountMismatch
  | alreadyExists
  | notFound
  | forbidden
  | invalidState
deriving DecidableEq, Repr

/-- A single outgoing payment from the escrow contract. -/
structure Transfer where
  recipient : Nat
  amount : Nat
deriving DecidableEq, Repr

/-- State of the escrow contract: owner, immutable platform fee
percentage, the per-order records, an append-only log of outgoing
transfers and the total fee retained by the cooperative. -/
structure EscrowContract where
  owner : Nat
  platform_fee_percentage : Nat
  orders : List (Nat × EscrowOrder)
  transfers : List Transfer
  platform_retained : Nat
deriving DecidableEq, Repr

/-- Look up the escrow record stored under an order id. -/
def findOrder (c : EscrowContract) (oid : Nat) : Option EscrowOrder :=
  getA c.orders oid

/-- Modelled from the spec: contracts/src/lib.rs is absent from the
source tree; `create_order(order_id, buyer, seller, amount)` requires the
attached funds to equal `amount` (AmountMismatch otherwise), rejects a
duplicate order id with AlreadyExists, then locks the funds in a new
record with status Pending. -/
def EscrowContract.create_order (c : EscrowContract) (oid buyer seller amount attached now : Nat) :
    Except EscrowErr EscrowContract :=
  if attached ≠ amount then .error .amountMismatch
  else if (findOrder c oid).isSome then .error .alreadyExists
  else .ok { c with orders := (oid, ⟨oid, buyer, seller, amount, .pending, now, none⟩) :: c.orders }

/-- Modelled from the spec: contracts/src/lib.rs is absent from the
source tree; `complete_order(order_id, caller)` fails with Forbidden
unless the caller is the buyer, with InvalidState unless the record is
Pending; on success it transfers `amount - fee` to the seller, retains
`fee = amount * platform_fee_percentage / 100`, and marks the record
Completed with a completion timestamp, all in one step. -/
def EscrowContract.complete_order (c : EscrowContract) (oid caller now : Nat) :
    Except EscrowErr EscrowContract :=
  match findOrder c oid with
  | none => .error .notFound
  | some o =>
    if caller ≠ o.buyer then .error .forbidden
    else if o.status ≠ .pending then .error .invalidState
    else
      .ok { c with
        orders := setA c.orders oid { o with status := .completed, completed_at := some now },
        transfers := ⟨o.seller, sellerAmount o.amount c.platform_fee_percentage⟩ :: c.transfers,
        platform_retained :=
          c.platform_retained + feeAmount o.amount c.platform_fee_percentage }

/-- Modelled from the spec: contracts/src/lib.rs is absent from the
source tree; `refund_order(order_id, caller)` fails with Forbidden unless
the caller is the seller or the contract owner, requires status Pending
(InvalidState otherwise), transfers the full locked amount back to the
buyer and marks the record Refunded. -/
def EscrowContract.refund_order (c : EscrowContract) (oid caller : Nat) :
    Except EscrowErr EscrowContract :=
  match findOrder c oid with
  | none => .error .notFound
  | some o =>
    if caller ≠ o.seller ∧ caller ≠ c.owner then .error .forbidden
    else if o.status ≠ .pending then .error .invalidState
    else
      .ok { c with
        orders := setA c.orders oid { o with status := .refunded },
        transfers := ⟨o.buyer, o.amount⟩ :: c.transfers }

/-- Run `complete_order`, keeping the previous contract state when the
call fails (a failed contract call leaves the chain state untouched). -/
def EscrowContract.try_complete (c : EscrowContract) (oid caller now : Nat) :
    EscrowContract × Option EscrowErr :=
  match c.complete_order oid caller now with
  | .ok c' => (c', none)
  | .error e => (c, some e)

/-- Run `refund_order`, keeping the previous contract state when the call
fails. -/
def EscrowContract.try_refund (c : EscrowContract) (oid caller : Nat) :
    EscrowContract × Option EscrowErr :=
  match c.refund_order oid caller with
  | .ok c' => (c', none)
  | .error e => (c, some e)

/-- Run `create_order`, keeping the previous contract state when the call
fails. -/
def EscrowContract.try_create (c : EscrowContract) (oid buyer seller amount attached now : Nat) :
    EscrowContract × Option EscrowErr :=
  match c.create_order oid buyer seller amount attached now with
  | .ok c' => (c', none)
  | .error e => (c, some e)

/-! ## Escrow test fixtures -/

/-- A pending escrow record: order 1, buyer 10, seller 20, 5000 locked. -/
def rec1 : EscrowOrder := ⟨1, 10, 20, 5000, .pending, 0, none⟩

/-- A contract (owner 99, fee 2%) holding the pending record `rec1`. -/
def escrow1 : EscrowContract := ⟨99, 2, [(1, rec1)], [], 0⟩

/-- An already-refunded escrow record: order 2, buyer 10, seller 20. -/
def rec2 : EscrowOrder := ⟨2, 10, 20, 5000, .refunded, 0, none⟩

/-- A contract (owner 99, fee 2%) holding the refunded record `rec2`. -/
def escrow2 : EscrowContract := ⟨99, 2, [(2, rec2)], [], 0⟩

/-! ## Escrow theorems -/

/-- C1: for every escrow order completed via `complete_order`, the amount
transferred to the seller plus the fee retained by the platform equals
the locked amount, and the retained fee is
`locked_amount * platform_fee_percentage / 100` under truncating integer
division (the platform fee percentage is bounded by 10 at contract
initialization). -/
theorem complete_order_conservation (c : EscrowContract) (oid now : Nat) (o : EscrowOrder)
    (hfind : findOrder c oid = some o) (hstatus : o.status = .pending)
    (hpct : c.platform_fee_percentage ≤ 10) :
    ∃ c', c.complete_order oid o.buyer now = .ok c' ∧
      c'.transfers =
        ⟨o.seller, sellerAmount o.amount c.platform_fee_percentage⟩ :: c.transfers ∧
      c'.platform_retained =
        c.platform_retained + feeAmount o.amount c.platform_fee_percentage ∧
      sellerAmount o.amount c.platform_fee_percentage +
        feeAmount o.amount c.platform_fee_percentage = o.amount ∧
      feeAmount o.amount c.platform_fee_percentage =
        o.amount * c.platform_fee_percentage / 100 ∧
      findOrder c' oid = some { o with status := .completed, completed_at := some now } := by
  have hrun : c.complete_order oid o.buyer now =
      .ok { c with
        orders := setA c.orders oid { o with status := .completed, completed_at := some now },
        transfers :=
          ⟨o.seller, sellerAmount o.amount c.platform_fee_percentage⟩ :: c.transfers,
        platform_retained :=
          c.platform_retained + feeAmount o.amount c.platform_fee_percentage } := by
    unfold EscrowContract.complete_order
    rw [hfind]
    simp [hstatus]
  refine ⟨_, hrun, rfl, rfl, ?_, rfl, ?_⟩
  · exact sellerAmount_add_feeAmount o.amount c.platform_fee_percentage
      (le_trans hpct (by norm_num))
  · exact getA_setA_same c.orders oid _ (by rw [show getA c.orders oid = some o from hfind]; rfl)

/-- Witness for C1 at the concrete fixture `escrow1`. -/
theorem complete_order_conservation_witness :
    findOrder escrow1 1 = some rec1 ∧ rec1.status = .pending ∧
      escrow1.platform_fee_percentage ≤ 10 ∧
      (∃ c', escrow1.complete_order 1 rec1.buyer 7 = .ok c' ∧
        c'.transfers =
          ⟨rec1.seller, sellerAmount rec1.amount escrow1.platform_fee_percentage⟩ ::
            escrow1.transfers ∧
        c'.platform_retained =
          escrow1.platform_retained + feeAmount rec1.amount escrow1.platform_fee_percentage ∧
        sellerAmount rec1.amount escrow1.platform_fee_percentage +
          feeAmount rec1.amount escrow1.platform_fee_percentage = rec1.amount ∧
        feeAmount rec1.amount escrow1.platform_fee_percentage =
          rec1.amount * escrow1.platform_fee_percentage / 100 ∧
        findOrder c' 1 = some { rec1 with status := .completed, completed_at := some 7 }) :=
  ⟨by decide, by decide, by decide,
    complete_order_conservation escrow1 1 7 rec1 (by decide) (by decide) (by decide)⟩

/-- C2: `complete_order` fails with Forbidden when the caller is not the
buyer, and with InvalidState when the caller is the buyer but the record
is not Pending (the buyer check runs first); in both failing cases the
whole contract state — every escrow record, the transfer log and the
retained fees — is returned unchanged, so no funds move. -/
theorem complete_order_guards (c : EscrowContract) (oid caller now : Nat) (o : EscrowOrder)
    (hfind : findOrder c oid = some o) :
    (caller ≠ o.buyer → c.try_complete oid caller now = (c, some .forbidden)) ∧
    (caller = o.buyer → o.status ≠ .pending →
      c.try_complete oid caller now = (c, some .invalidState)) := by
  constructor
  · intro h
    unfold EscrowContract.try_complete EscrowContract.complete_order
    rw [hfind]
    simp [h]
  · intro h1 h2
    unfold EscrowContract.try_complete EscrowContract.complete_order
    rw [hfind]
    simp [h1, h2]

/-- Witness for C2: a non-buyer caller is rejected with Forbidden on the
pending fixture, and the buyer is rejected with InvalidState on the
refunded fixture; both contracts are returned unchanged. -/
theorem complete_order_guards_witness :
    findOrder escrow1 1 = some rec1 ∧
      escrow1.try_complete 1 11 5 = (escrow1, some .forbidden) ∧
      escrow2.try_complete 2 10 5 = (escrow2, some .invalidState) :=
  ⟨by decide,
    (complete_order_guards escrow1 1 11 5 rec1 (by decide)).1 (by decide),
    (complete_order_guards escrow2 2 10 5 rec2 (by decide)).2 rfl (by decide)⟩

/-- C3: `refund_order` fails with Forbidden unless the caller is the
seller or the owner, fails with InvalidState from any non-Pending status
(in both cases the contract state is unchanged); from Pending with an
authorized caller it transfers the full locked amount back to the buyer
and marks the record Refunded, and a second `refund_order` on the
resulting contract fails with InvalidState without a second transfer. -/
theorem refund_order_spec (c : EscrowContract) (oid caller : Nat) (o : EscrowOrder)
    (hfind : findOrder c oid = some o) :
    (caller ≠ o.seller → caller ≠ c.owner →
      c.try_refund oid caller = (c, some .forbidden)) ∧
    ((caller = o.seller ∨ caller = c.owner) → o.status ≠ .pending →
      c.try_refund oid caller = (c, some .invalidState)) ∧
    ((caller = o.seller ∨ caller = c.owner) → o.status = .pending →
      ∃ c', c.refund_order oid caller = .ok c' ∧
        c'.transfers = ⟨o.buyer, o.amount⟩ :: c.transfers ∧
        findOrder c' oid = some { o with status := .refunded } ∧
        c'.try_refund oid caller = (c', some .invalidState)) := by
  refine ⟨?_, ?_, ?_⟩
  · intro h1 h2
    unfold EscrowContract.try_refund EscrowContract.refund_order
    rw [hfind]
    simp [h1, h2]
  · intro hauth hst
    have hcond : ¬(caller ≠ o.seller ∧ caller ≠ c.owner) := by
      rcases hauth with h | h <;> simp [h]
    unfold EscrowContract.try_refund EscrowContract.refund_order
    rw [hfind]
    simp [hcond, hst]
  · intro hauth hst
    have hcond : ¬(caller ≠ o.seller ∧ caller ≠ c.owner) := by
      rcases hauth with h | h <;> simp [h]
    have hrun : c.refund_order oid caller =
        .ok { c with
          orders := setA c.orders oid { o with status := .refunded },
          transfers := ⟨o.buyer, o.amount⟩ :: c.transfers } := by
      unfold EscrowContract.refund_order
      rw [hfind]
      simp [hcond, hst]
    have hfound' :
        findOrder { c with
          orders := setA c.orders oid { o with status := .refunded },
          transfers := ⟨o.buyer, o.amount⟩ :: c.transfers } oid =
          some { o with status := .refunded } := by
      exact getA_setA_same c.orders oid _
        (by rw [show getA c.orders oid = some o from hfind]; rfl)
    refine ⟨_, hrun, rfl, hfound', ?_⟩
    unfold EscrowContract.try_refund EscrowContract.refund_order
    rw [hfound']
    simp [hcond]

/-- Witness for C3 at the fixtures: a stranger is rejected, the seller
refunds successfully, and the same seller cannot refund twice. -/
theorem refund_order_spec_witness :
    findOrder escrow1 1 = some rec1 ∧
      escrow1.try_refund 1 33 = (escrow1, some .forbidden) ∧
      (∃ c', escrow1.refund_order 1 20 = .ok c' ∧
        c'.transfers = ⟨rec1.buyer, rec1.amount⟩ :: escrow1.transfers ∧
        findOrder c' 1 = some { rec1 with status := .refunded } ∧
        c'.try_refund 1 20 = (c', some .invalidState)) :=
  ⟨by decide,
    (refund_order_spec escrow1 1 33 rec1 (by decide)).1 (by decide) (by decide),
    (refund_order_spec escrow1 1 20 rec1 (by decide)).2.2 (Or.inl rfl) (by decide)⟩

/-- C8: `create_order` fails with AmountMismatch unless the attached
funds equal the order amount, fails with AlreadyExists for a duplicate
order id (both failures leave the contract unchanged); on success it
locks the funds in a new record with status Pending, with no outgoing
transfer. -/
theorem escrow_create_order_spec (c : EscrowContract) (oid buyer seller amount attached now : Nat) :
    (attached ≠ amount →
      c.try_create oid buyer seller amount attached now = (c, some .amountMismatch)) ∧
    (attached = amount → (findOrder c oid).isSome →
      c.try_create oid buyer seller amount attached now = (c, some .alreadyExists)) ∧
    (attached = amount → findOrder c oid = none →
      ∃ c', c.create_order oid buyer seller amount attached now = .ok c' ∧
        findOrder c' oid = some ⟨oid, buyer, seller, amount, .pending, now, none⟩ ∧
        c'.transfers = c.transfers ∧ c'.platform_retained = c.platform_retained) := by
  refine ⟨?_, ?_, ?_⟩
  · intro h
    unfold EscrowContract.try_create EscrowContract.create_order
    simp [h]
  · intro h1 h2
    unfold EscrowContract.try_create EscrowContract.create_order
    simp [h1, h2]
  · intro h1 h2
    have hrun : c.create_order oid buyer seller amount attached now =
        .ok { c with orders := (oid, ⟨oid, buyer, seller, amount, .pending, now, none⟩) :: c.orders } := by
      unfold EscrowContract.create_order
      simp [h1, h2]
    exact ⟨_, hrun, getA_cons_self c.orders oid _, rfl, rfl⟩

/-- Witness for C8 at the fixtures: an attached-deposit mismatch and a
duplicate id are rejected with the contract unchanged, and a fresh order
is created locked and Pending. -/
theorem escrow_create_order_spec_witness :
    escrow1.try_create 3 10 20 5000 4999 0 = (escrow1, some .amountMismatch) ∧
      escrow1.try_create 1 10 20 5000 5000 0 = (escrow1, some .alreadyExists) ∧
      (∃ c', escrow1.create_order 3 10 20 5000 5000 9 = .ok c' ∧
        findOrder c' 3 = some ⟨3, 10, 20, 5000, .pending, 9, none⟩ ∧
        c'.transfers = escrow1.transfers ∧ c'.platform_retained = escrow1.platform_retained) :=
  ⟨(escrow_create_order_spec escrow1 3 10 20 5000 4999 0).1 (by decide),
    (escrow_create_order_spec escrow1 1 10 20 5000 5000 0).2.1 rfl (by decide),
    (escrow_create_order_spec escrow1 3 10 20 5000 5000 9).2.2 rfl (by decide)⟩

/-! ## Order state machine

The OrderStatus enumeration and the Order record follow the design
document's Order Processing Module and the orders migration; the
operations are modelled from the specification because the backend Rust
modules are absent from the source tree. -/

/-- Order statuses from the design document and the frontend Order
interface: Pending, Accepted, Rejected, Completed, Cancelled. -/
inductive OrderStatus
  | pending
  | accepted
  | rejected
  | completed
  | cancelled
deriving DecidableEq, Repr

/-- The four actions that can move an order out of a state. -/
inductive OrderAction
  | acceptAct
  | rejectAct
  | completeAct
  | cancelAct
deriving DecidableEq, Repr

/-- Modelled from the spec: the explicit order transition table
(current state × action → next state or reject).  Pending can move to
Accepted or Rejected; Accepted can move to Completed or Cancelled; every
other state is terminal. -/
def nextStatus : OrderStatus → OrderAction → Option OrderStatus
  | .pending, .acceptAct => some .accepted
  | .pending, .rejectAct => some .rejected
  | .accepted, .completeAct => some .completed
  | .accepted, .cancelAct => some .cancelled
  | _, _ => none

/-- An order record, with the fields persisted by the orders migration
(id, buyer id, seller id, listing id, quantity, total amount, status,
created at).  Decimal columns are embedded as naturals in cents. -/
structure Order where
  id : Nat
  buyer_id : Nat
  seller_id : Nat
  listing_id : Nat
  quantity : Nat
  total_amount : Nat
  status : OrderStatus
  created_at : Nat
deriving DecidableEq, Repr

/-- Availability states of a product listing, from the frontend
ProductListing interface. -/
inductive AvailabilityStatus
  | available
  | outOfStock
  | archived
deriving DecidableEq, Repr

/-- The slice of a product listing the order engine reads: owner, unit
price, available quantity, availability status. -/
structure Listing where
  id : Nat
  member_id : Nat
  unit_price : Nat
  quantity_available : Nat
  availability_status : AvailabilityStatus
deriving DecidableEq, Repr

/-- Typed failures of the order state machine. -/
inductive OrderErr
  | notFound
  | unavailable
  | invalidQuantity
  | forbiddenOrd
  | invalidTransition
  | insufficientInventory
deriving DecidableEq, Repr

/-- Off-chain state: the order ledger and the listing collaborator's
inventory, both keyed by id. -/
structure Machine where
  orders : List (Nat × Order)
  listings : List (Nat × Listing)
deriving DecidableEq, Repr

/-- Modelled from the spec: `create(buyer, listing, quantity)` fails with
Unavailable if the listing is not Available, with InvalidQuantity if the
quantity is zero or exceeds the listed quantity; on success computes
`total_amount = quantity * unit_price`, persists the order in Pending and
returns it.  Order creation does not touch the listing inventory. -/
def Machine.create_order (m : Machine) (buyer lid quantity oid now : Nat) :
    Except OrderErr (Order × Machine) :=
  match getA m.listings lid with
  | none => .error .notFound
  | some l =>
    if l.availability_status ≠ .available then .error .unavailable
    else if quantity = 0 ∨ l.quantity_available < quantity then .error .invalidQuantity
    else
      let o : Order :=
        ⟨oid, buyer, l.member_id, lid, quantity, quantity * l.unit_price, .pending, now⟩
      .ok (o, { m with orders := (oid, o) :: m.orders })

/-- Modelled from the spec: `accept(order_id, seller)` fails with
NotFound, Forbidden (caller is not the seller) or InvalidTransition
(via the transition table); it decrements the listing inventory by the
order quantity and flips the status to Accepted together, failing with
InsufficientInventory (status stays Pending) when the listing quantity
has raced below the order quantity. -/
def Machine.accept_order (m : Machine) (oid seller : Nat) : Except OrderErr Machine :=
  match getA m.orders oid with
  | none => .error .notFound
  | some o =>
    if seller ≠ o.seller_id then .error .forbiddenOrd
    else
      match nextStatus o.status .acceptAct with
      | none => .error .invalidTransition
      | some s' =>
        match getA m.listings o.listing_id with
        | none => .error .notFound
        | some l =>
          if l.quantity_available < o.quantity then .error .insufficientInventory
          else .ok { m with
            orders := setA m.orders oid { o with status := s' },
            listings := setA m.listings o.listing_id
              { l with quantity_available := l.quantity_available - o.quantity } }

/-- Modelled from the spec: `reject(order_id, seller)` has the same
guards as accept, transitions Pending to Rejected via the table, and
changes no inventory. -/
def Machine.reject_order (m : Machine) (oid seller : Nat) : Except OrderErr Machine :=
  match getA m.orders oid with
  | none => .error .notFound
  | some o =>
    if seller ≠ o.seller_id then .error .forbiddenOrd
    else
      match nextStatus o.status .rejectAct with
      | none => .error .invalidTransition
      | some s' => .ok { m with orders := setA m.orders oid { o with status := s' } }

/-- Modelled from the spec: the coordinator-invoked complete/cancel of an
order, guarded by the same transition table (only Accepted orders can be
Completed or Cancelled). -/
def Machine.applyAction (m : Machine) (oid : Nat) (a : OrderAction) : Except OrderErr Machine :=
  match getA m.orders oid with
  | none => .error .notFound
  | some o =>
    match nextStatus o.status a with
    | none => .error .invalidTransition
    | some s' => .ok { m with orders := setA m.orders oid { o with status := s' } }

/-- Run `accept_order`, keeping the previous state when the call fails. -/
def Machine.try_accept (m : Machine) (oid seller : Nat) : Machine × Option OrderErr :=
  match m.accept_order oid seller with
  | .ok m' => (m', none)
  | .error e => (m, some e)

/-- Run `reject_order`, keeping the previous state when the call fails. -/
def Machine.try_reject (m : Machine) (oid seller : Nat) : Machine × Option OrderErr :=
  match m.reject_order oid seller with
  | .ok m' => (m', none)
  | .error e => (m, some e)

/-- One mutating step on an existing order: seller accept/reject, or a
coordinator complete/cancel, keeping the previous state on failure. -/
def Machine.step (m : Machine) (oid : Nat) (a : OrderAction) (caller : Nat) :
    Machine × Option OrderErr :=
  match a with
  | .acceptAct => m.try_accept oid caller
  | .rejectAct => m.try_reject oid caller
  | _ =>
    match m.applyAction oid a with
    | .ok m' => (m', none)
    | .error e => (m, some e)

/-! ## Order machine fixtures -/

/-- A pending order: id 1, buyer 10, seller 20, listing 5, 10 units,
total 5000. -/
def ord1 : Order := ⟨1, 10, 20, 5, 10, 5000, .pending, 0⟩

/-- An available listing: id 5, owner 20, unit price 500, 10 units in
stock. -/
def lst1 : Listing := ⟨5, 20, 500, 10, .available⟩

/-- A machine holding the pending order `ord1` and the listing `lst1`. -/
def mach1 : Machine := ⟨[(1, ord1)], [(5, lst1)]⟩

/-- An accepted order: id 2, buyer 10, seller 20, listing 5. -/
def ord2acc : Order := ⟨2, 10, 20, 5, 10, 5000, .accepted, 0⟩

/-- A machine holding the accepted order `ord2acc` and the listing
`lst1`. -/
def mach2 : Machine := ⟨[(2, ord2acc)], [(5, lst1)]⟩

/-! ## Order machine theorems -/

/-- C5: the transition table admits exactly Pending to Accepted, Pending
to Rejected, Accepted to Completed and Accepted to Cancelled (every
other state is terminal), and on any order that is not Pending both
`accept_order` and `reject_order` invoked by the order's seller fail
with InvalidTransition, leaving the machine state unchanged. -/
theorem order_status_transitions :
    (∀ s a s', nextStatus s a = some s' →
      (s = .pending ∧ s' = .accepted) ∨ (s = .pending ∧ s' = .rejected) ∨
      (s = .accepted ∧ s' = .completed) ∨ (s = .accepted ∧ s' = .cancelled)) ∧
    (∀ (m : Machine) (oid : Nat) (o : Order), getA m.orders oid = some o →
      o.status ≠ .pending →
      m.try_accept oid o.seller_id = (m, some .invalidTransition) ∧
      m.try_reject oid o.seller_id = (m, some .invalidTransition)) := by
  constructor
  · intro s a s' h
    cases s <;> cases a <;> simp_all [nextStatus]
  · intro m oid o hfind hst
    have hna : nextStatus o.status .acceptAct = none := by
      cases h : o.status <;> simp_all [nextStatus]
    have hnr : nextStatus o.status .rejectAct = none := by
      cases h : o.status <;> simp_all [nextStatus]
    constructor
    · unfold Machine.try_accept Machine.accept_order
      rw [hfind]
      simp [hna]
    · unfold Machine.try_reject Machine.reject_order
      rw [hfind]
      simp [hnr]

/-- Witness for C5: the Pending-to-Accepted table entry, and the fixture
accepted order on which seller accept/reject fail with
InvalidTransition. -/
theorem order_status_transitions_witness :
    ((OrderStatus.pending = .pending ∧ OrderStatus.accepted = .accepted) ∨
      (OrderStatus.pending = .pending ∧ OrderStatus.accepted = .rejected) ∨
      (OrderStatus.pending = .accepted ∧ OrderStatus.accepted = .completed) ∨
      (OrderStatus.pending = .accepted ∧ OrderStatus.accepted = .cancelled)) ∧
    (mach2.try_accept 2 ord2acc.seller_id = (mach2, some .invalidTransition) ∧
      mach2.try_reject 2 ord2acc.seller_id = (mach2, some .invalidTransition)) :=
  ⟨order_status_transitions.1 .pending .acceptAct .accepted (by decide),
    order_status_transitions.2 mach2 2 ord2acc (by decide) (by decide)⟩

/-- C6: for a buyer, an Available listing with at least `quantity` units
listed and `quantity > 0`, `create_order` succeeds, the resulting order
has `total_amount = quantity * unit_price` and status Pending, and the
listing inventory is untouched by order creation. -/
theorem create_order_valid (m : Machine) (buyer lid quantity oid now : Nat) (l : Listing)
    (hfind : getA m.listings lid = some l)
    (havail : l.availability_status = .available)
    (hq : 0 < quantity) (hle : quantity ≤ l.quantity_available) :
    ∃ o m', m.create_order buyer lid quantity oid now = .ok (o, m') ∧
      o.total_amount = quantity * l.unit_price ∧
      o.status = .pending ∧
      o.buyer_id = buyer ∧ o.seller_id = l.member_id ∧ o.listing_id = lid ∧
      o.quantity = quantity ∧
      m'.listings = m.listings := by
  have h0 : quantity ≠ 0 := Nat.pos_iff_ne_zero.mp hq
  have h1 : ¬ l.quantity_available < quantity := not_lt.mpr hle
  have hrun : m.create_order buyer lid quantity oid now =
      .ok (⟨oid, buyer, l.member_id, lid, quantity, quantity * l.unit_price, .pending, now⟩,
        { m with orders :=
          (oid, ⟨oid, buyer, l.member_id, lid, quantity, quantity * l.unit_price,
            .pending, now⟩) :: m.orders }) := by
    unfold Machine.create_order
    rw [hfind]
    simp [havail, h0, h1]
  exact ⟨_, _, hrun, rfl, rfl, rfl, rfl, rfl, rfl, rfl⟩

/-- Witness for C6: buyer 11 orders 10 units at unit price 500 on the
fixture listing. -/
theorem create_order_valid_witness :
    getA mach1.listings 5 = some lst1 ∧ lst1.availability_status = .available ∧
      0 < 10 ∧ 10 ≤ lst1.quantity_available ∧
      (∃ o m', mach1.create_order 11 5 10 9 3 = .ok (o, m') ∧
        o.total_amount = 10 * lst1.unit_price ∧
        o.status = .pending ∧
        o.buyer_id = 11 ∧ o.seller_id = lst1.member_id ∧ o.listing_id = 5 ∧
        o.quantity = 10 ∧
        m'.listings = mach1.listings) :=
  ⟨by decide, by decide, by decide, by decide,
    create_order_valid mach1 11 5 10 9 3 lst1 (by decide) (by decide) (by decide) (by decide)⟩

/-! ## Persisted order schema and the frontend Order type

Embedded directly from the orders migration
(CREATE TABLE orders) and from the frontend Order interface in the API
service module. -/

/-- The column names of the orders table exactly as created by the
migration: no unit price column is persisted, only the total amount. -/
def ordersTableColumns : List String :=
  ["id", "buyer_id", "seller_id", "product_listing_id", "quantity",
    "total_amount", "status", "created_at"]

/-- The field names of the frontend Order interface in the API service
module, which does declare a unit_price field. -/
def frontendOrderFields : List String :=
  ["id", "buyer_id", "seller_id", "listing_id", "quantity", "unit_price",
    "total_amount", "status", "created_at", "updated_at"]

/-! ## Frame property of the order operations -/

theorem step_orders_cases (m : Machine) (oid caller : Nat) (a : OrderAction) (o : Order)
    (hfind : getA m.orders oid = some o) :
    (m.step oid a caller).1.orders = m.orders ∨
      ∃ s', (m.step oid a caller).1.orders = setA m.orders oid { o with status := s' } := by
  cases a
  case acceptAct =>
    unfold Machine.step Machine.try_accept Machine.accept_order
    rw [hfind]
    by_cases hs : caller ≠ o.seller_id
    · left; simp [hs]
    · cases hns : nextStatus o.status .acceptAct with
      | none => left; simp [hs, hns]
      | some s' =>
        cases hl : getA m.listings o.listing_id with
        | none => left; simp [hs, hns, hl]
        | some l =>
          by_cases hinv : l.quantity_available < o.quantity
          · left; simp [hs, hns, hl, hinv]
          · right; exact ⟨s', by simp [hs, hns, hl, hinv]⟩
  case rejectAct =>
    unfold Machine.step Machine.try_reject Machine.reject_order
    rw [hfind]
    by_cases hs : caller ≠ o.seller_id
    · left; simp [hs]
    · cases hns : nextStatus o.status .rejectAct with
      | none => left; simp [hs, hns]
      | some s' => right; exact ⟨s', by simp [hs, hns]⟩
  case completeAct =>
    unfold Machine.step Machine.applyAction
    rw [hfind]
    cases hns : nextStatus o.status .completeAct with
    | none => left; simp [hns]
    | some s' => right; exact ⟨s', by simp [hns]⟩
  case cancelAct =>
    unfold Machine.step Machine.applyAction
    rw [hfind]
    cases hns : nextStatus o.status .cancelAct with
    | none => left; simp [hns]
    | some s' => right; exact ⟨s', by simp [hns]⟩

/-- C9 counterexample: the persisted orders schema carries no
unit price column (only the frontend Order interface declares one), so
the claim that every persisted Order carries the unit price at the time
of order is false for the orders table as migrated. -/
theorem orders_schema_no_unit_price_cex :
    "unit_price" ∉ ordersTableColumns ∧ "unit_price" ∈ frontendOrderFields := by
  decide

/-- C9 amended: the persisted order record carries the total amount
(quantity times the unit price at order time) rather than a unit price
column, and every mutating operation on an existing order (seller
accept/reject and coordinator complete/cancel) preserves the order's id,
buyer id, seller id, listing id, quantity, total amount and creation
timestamp — only the status may change. -/
theorem order_record_frame (m : Machine) (oid caller : Nat) (a : OrderAction) (o : Order)
    (hfind : getA m.orders oid = some o) :
    ("total_amount" ∈ ordersTableColumns ∧ "unit_price" ∉ ordersTableColumns) ∧
    ∃ o', getA (m.step oid a caller).1.orders oid = some o' ∧
      o'.id = o.id ∧ o'.buyer_id = o.buyer_id ∧ o'.seller_id = o.seller_id ∧
      o'.listing_id = o.listing_id ∧ o'.quantity = o.quantity ∧
      o'.total_amount = o.total_amount ∧ o'.created_at = o.created_at := by
  refine ⟨by decide, ?_⟩
  rcases step_orders_cases m oid caller a o hfind with h | ⟨s', h⟩
  · exact ⟨o, by rw [h]; exact hfind, rfl, rfl, rfl, rfl, rfl, rfl, rfl⟩
  · refine ⟨{ o with status := s' }, ?_, rfl, rfl, rfl, rfl, rfl, rfl, rfl⟩
    rw [h]
    exact getA_setA_same m.orders oid _ (by rw [hfind]; rfl)

/-- Witness for C9 amended: the seller accepts the fixture pending order
and every field except the status survives. -/
theorem order_record_frame_witness :
    getA mach1.orders 1 = some ord1 ∧
      (("total_amount" ∈ ordersTableColumns ∧ "unit_price" ∉ ordersTableColumns) ∧
        ∃ o', getA (mach1.step 1 .acceptAct 20).1.orders 1 = some o' ∧
          o'.id = ord1.id ∧ o'.buyer_id = ord1.buyer_id ∧ o'.seller_id = ord1.seller_id ∧
          o'.listing_id = ord1.listing_id ∧ o'.quantity = ord1.quantity ∧
          o'.total_amount = ord1.total_amount ∧ o'.created_at = ord1.created_at) :=
  ⟨by decide, order_record_frame mach1 1 20 .acceptAct ord1 (by decide)⟩

/-! ## Transaction coordinator

The Transaction record follows the design document's Transaction Module
and the transactions migration; the coordinator operations are modelled
from the specification because the backend Rust modules are absent from
the source tree. -/

/-- Transaction statuses from the design document: Pending, Completed,
Failed, Reversed. -/
inductive TxStatus
  | pending
  | completed
  | failed
  | reversed
deriving DecidableEq, Repr

/-- An off-chain transaction record, with the fields persisted by the
transactions migration (id, order id, gross amount, cooperative fee,
status, created at, optional completed at). -/
structure Txn where
  id : Nat
  order_id : Nat
  amount : Nat
  cooperative_fee : Nat
  status : TxStatus
  created_at : Nat
  completed_at : Option Nat
deriving DecidableEq, Repr

/-- Coordinator state: the transaction ledger, a fresh-id counter, and
the immutable platform fee percentage injected at construction. -/
structure Coordinator where
  txs : List Txn
  next_tx_id : Nat
  fee_percentage : Nat
deriving DecidableEq, Repr

/-- Look up the transaction recorded for an order id. -/
def findTx (st : Coordinator) (oid : Nat) : Option Txn :=
  st.txs.find? (fun t => t.order_id == oid)

/-- Modelled from the spec: the coordinator's `initiate(order)` creates a
Transaction in Pending with `amount = order.total_amount` and
`cooperative_fee` computed via the Fee Calculator; it is idempotent on
the order id — re-invocation returns the existing Transaction rather
than erroring or creating a second one. -/
def Coordinator.initiate (st : Coordinator) (o : Order) (now : Nat) : Txn × Coordinator :=
  match findTx st o.id with
  | some t => (t, st)
  | none =>
    let t : Txn :=
      ⟨st.next_tx_id, o.id, o.total_amount, feeAmount o.total_amount st.fee_percentage,
        .pending, now, none⟩
    (t, { st with txs := t :: st.txs, next_tx_id := st.next_tx_id + 1 })

/-- At most one transaction record exists per order id. -/
def atMostOneTx (st : Coordinator) : Prop :=
  ∀ oid : Nat, (st.txs.filter (fun t => t.order_id == oid)).length ≤ 1

/-! ## Coordinator fixtures -/

/-- An accepted order for the coordinator: id 7, 100 units, total
5000. -/
def ordC4 : Order := ⟨7, 10, 20, 5, 100, 5000, .accepted, 0⟩

/-- An empty coordinator configured with the scenario fee of 2%. -/
def coordC4 : Coordinator := ⟨[], 1, 2⟩

/-- An empty escrow contract (owner 99, fee 2%). -/
def escrowC4 : EscrowContract := ⟨99, 2, [], [], 0⟩

/-- The escrow record the contract creates for `ordC4`: 5000 locked. -/
def recC4 : EscrowOrder := ⟨7, 10, 20, 5000, .pending, 0, none⟩

/-- The contract state after locking 5000 for order 7. -/
def escrowC4' : EscrowContract := ⟨99, 2, [(7, recC4)], [], 0⟩

/-! ## Coordinator theorems -/

/-- C7: `initiate` is idempotent on the order id — a second invocation
returns the very same transaction (in particular the same id) and leaves
the coordinator unchanged — and it preserves the at-most-one-transaction-
per-order invariant. -/
theorem initiate_idempotent (st : Coordinator) (o : Order) (now now2 : Nat)
    (hinv : atMostOneTx st) :
    (st.initiate o now).2.initiate o now2 = ((st.initiate o now).1, (st.initiate o now).2) ∧
    atMostOneTx (st.initiate o now).2 := by
  cases h : findTx st o.id with
  | some t =>
    have hrun : st.initiate o now = (t, st) := by
      unfold Coordinator.initiate
      rw [h]
    rw [hrun]
    exact ⟨by unfold Coordinator.initiate; rw [h], hinv⟩
  | none =>
    have hall : ∀ t ∈ st.txs, ¬ (t.order_id == o.id) := List.find?_eq_none.mp h
    have hrun : st.initiate o now =
        (⟨st.next_tx_id, o.id, o.total_amount, feeAmount o.total_amount st.fee_percentage,
            .pending, now, none⟩,
          { st with
            txs := ⟨st.next_tx_id, o.id, o.total_amount,
              feeAmount o.total_amount st.fee_percentage, .pending, now, none⟩ :: st.txs,
            next_tx_id := st.next_tx_id + 1 }) := by
      unfold Coordinator.initiate
      rw [h]
    rw [hrun]
    constructor
    · unfold Coordinator.initiate findTx
      simp [List.find?_cons]
    · intro oid
      by_cases hoid : o.id = oid
      · have hnil : st.txs.filter (fun t => t.order_id == oid) = [] := by
          refine List.filter_eq_nil_iff.mpr ?_
          intro t ht
          rw [← hoid]
          exact hall t ht
        simp [List.filter_cons, hoid, hnil]
      · have hhead : ((⟨st.next_tx_id, o.id, o.total_amount,
            feeAmount o.total_amount st.fee_percentage, .pending, now, none⟩ : Txn).order_id
              == oid) = false := by
          simp [hoid]
        simp only [List.filter_cons, hhead, Bool.false_eq_true, if_false]
        exact hinv oid

/-- Witness for C7 at the empty coordinator and the fixture order. -/
theorem initiate_idempotent_witness :
    atMostOneTx coordC4 ∧
      ((coordC4.initiate ordC4 0).2.initiate ordC4 3 =
        ((coordC4.initiate ordC4 0).1, (coordC4.initiate ordC4 0).2) ∧
      atMostOneTx (coordC4.initiate ordC4 0).2) :=
  ⟨fun oid => by simp [coordC4],
    initiate_idempotent coordC4 ordC4 0 3 (fun oid => by simp [coordC4])⟩

/-- C4 counterexample: with the configured 2% fee, the Transaction that
`initiate` creates for an order of total amount 5000 has amount 5000 and
cooperative fee 100, while the escrow record created for the same order
locks exactly 5000 — so `Transaction.amount + Transaction.cooperative_fee`
exceeds `EscrowRecord.amount`, refuting the claimed invariant. -/
theorem transaction_fee_exceeds_escrow_cex :
    escrowC4.create_order 7 10 20 5000 5000 0 = .ok escrowC4' ∧
      findOrder escrowC4' 7 = some recC4 ∧
      recC4.amount = ordC4.total_amount ∧
      (coordC4.initiate ordC4 0).1.amount = ordC4.total_amount ∧
      (coordC4.initiate ordC4 0).1.cooperative_fee = 100 ∧
      ¬ ((coordC4.initiate ordC4 0).1.amount + (coordC4.initiate ordC4 0).1.cooperative_fee
          ≤ recC4.amount) :=
  ⟨rfl, rfl, rfl, rfl, rfl, by decide⟩

/-- C4 amended: the Transaction created by `initiate` has amount equal to
`order.total_amount` (the escrowed amount) with the cooperative fee
computed by the Fee Calculator, and the fee is carved out of that amount
rather than added on top: the fee never exceeds the amount, and the
seller payout plus the fee equals the escrowed amount exactly. -/
theorem initiate_amount_fee_carved (st : Coordinator) (o : Order) (now : Nat)
    (hnone : findTx st o.id = none) (hpct : st.fee_percentage ≤ 10) :
    (st.initiate o now).1.amount = o.total_amount ∧
    (st.initiate o now).1.cooperative_fee = feeAmount o.total_amount st.fee_percentage ∧
    (st.initiate o now).1.cooperative_fee ≤ (st.initiate o now).1.amount ∧
    sellerAmount o.total_amount st.fee_percentage +
      feeAmount o.total_amount st.fee_percentage = o.total_amount ∧
    (st.initiate o now).1.status = .pending := by
  have hrun : st.initiate o now =
      (⟨st.next_tx_id, o.id, o.total_amount, feeAmount o.total_amount st.fee_percentage,
          .pending, now, none⟩,
        { st with
          txs := ⟨st.next_tx_id, o.id, o.total_amount,
            feeAmount o.total_amount st.fee_percentage, .pending, now, none⟩ :: st.txs,
          next_tx_id := st.next_tx_id + 1 }) := by
    unfold Coordinator.initiate
    rw [hnone]
  rw [hrun]
  refine ⟨rfl, rfl, feeAmount_le o.total_amount st.fee_percentage
    (le_trans hpct (by norm_num)), sellerAmount_add_feeAmount o.total_amount st.fee_percentage
    (le_trans hpct (by norm_num)), rfl⟩

/-- Witness for C4 amended at the empty coordinator and fixture order. -/
theorem initiate_amount_fee_carved_witness :
    findTx coordC4 ordC4.id = none ∧ coordC4.fee_percentage ≤ 10 ∧
      ((coordC4.initiate ordC4 0).1.amount = ordC4.total_amount ∧
      (coordC4.initiate ordC4 0).1.cooperative_fee =
        feeAmount ordC4.total_amount coordC4.fee_percentage ∧
      (coordC4.initiate ordC4 0).1.cooperative_fee ≤ (coordC4.initiate ordC4 0).1.amount ∧
      sellerAmount ordC4.total_amount coordC4.fee_percentage +
        feeAmount ordC4.total_amount coordC4.fee_percentage = ordC4.total_amount ∧
      (coordC4.initiate ordC4 0).1.status = .pending) :=
  ⟨by decide, by decide, initiate_amount_fee_carved coordC4 ordC4 0 (by decide) (by decide)⟩

/-! ## Frontend orders API client

Embedded directly from the API service module: `ordersAPI.updateStatus`
issues a PUT to `/orders/:id/status` with the requested status string in
the body, for any of the five statuses, with no client-side guard. -/

/-- Wire form of an order status, as the union type in the frontend API
service spells it. -/
def orderStatusString : OrderStatus → String
  | .pending => "Pending"
  | .accepted => "Accepted"
  | .rejected => "Rejected"
  | .completed => "Completed"
  | .cancelled => "Cancelled"

/-- An HTTP request assembled by the frontend API client: method, path
segments and the status carried in the JSON body. -/
structure ApiRequest where
  method : String
  path : List String
  body_status : String
deriving DecidableEq, Repr

/-- The frontend `ordersAPI.updateStatus(id, status)`: a PUT to
`/orders/:id/status` whose body holds exactly the requested status. -/
def ordersAPI_updateStatus (id : String) (s : OrderStatus) : ApiRequest :=
  { method := "PUT", path := ["orders", id, "status"], body_status := orderStatusString s }

/-- C10: for every order id and every one of the five statuses,
`ordersAPI.updateStatus` forwards the requested status to the server
unmodified (the wire encoding is injective, so distinct requested
statuses reach the server as distinct values) with no client-side
transition guard — in particular Completed and Cancelled, statuses the
coordinator is supposed to own, can be requested directly. -/
theorem updateStatus_forwards_status :
    (∀ (id : String) (s : OrderStatus),
      (ordersAPI_updateStatus id s).body_status = orderStatusString s ∧
      (ordersAPI_updateStatus id s).method = "PUT" ∧
      (ordersAPI_updateStatus id s).path = ["orders", id, "status"]) ∧
    (∀ s s', orderStatusString s = orderStatusString s' → s = s') ∧
    (∀ id : String,
      (ordersAPI_updateStatus id .completed).body_status = "Completed" ∧
      (ordersAPI_updateStatus id .cancelled).body_status = "Cancelled") := by
  refine ⟨fun id s => ⟨rfl, rfl, rfl⟩, ?_, fun id => ⟨rfl, rfl⟩⟩
  intro s s' h
  cases s <;> cases s' <;> first | rfl | exact absurd h (by decide)

/-- Witness for C10: the client requests Completed for order "o1" and
the body carries exactly "Completed"; the wire encoding hypothesis is
discharged at equal inputs. -/
theorem updateStatus_forwards_status_witness :
    ((ordersAPI_updateStatus "o1" .completed).body_status =
        orderStatusString .completed ∧
      (ordersAPI_updateStatus "o1" .completed).method = "PUT" ∧
      (ordersAPI_updateStatus "o1" .completed).path = ["orders", "o1", "status"]) ∧
      OrderStatus.completed = OrderStatus.completed :=
  ⟨updateStatus_forwards_status.1 "o1" .completed,
    updateStatus_forwards_status.2.1 .completed .completed rfl⟩
